import Mathlib

/-!
Shallow embedding of `atomic_metrics_core/src/lib.rs`.

Text (file contents, counter names, generated code, error messages) is
modelled as `List Char`.  Rust compares `String`s byte-wise on their UTF-8
encoding; UTF-8 byte-wise order coincides with code-point order, so the
code-point-wise lexicographic order on `List Char` is the faithful model.

The regex character classes `\w`, `\d`, `\s` are modelled by their ASCII
subsets (the identifier tokens the scanner is aimed at are ASCII).
-/

set_option maxRecDepth 100000

namespace AtomicMetrics

/-- ASCII subset of the regex class `\w` (also covers `[\d\w]`, since
`\d ⊆ \w`): letters, digits and underscore. -/
def isWordChar (c : Char) : Bool := c.isAlphanum || c = '_'

/-- ASCII subset of the regex class `\s`. -/
def isSpaceChar (c : Char) : Bool :=
  c = ' ' || c = '\t' || c = '\n' || c = '\r' || c = '\x0b' || c = '\x0c'

/-- The terminating delimiter class `[)\n,]` of the six recognition regexes. -/
def isDelim (c : Char) : Bool := c = ')' || c = '\n' || c = ','

/-- Strip a literal prefix; `none` when `s` does not start with `kw`. -/
def dropPrefix? : List Char → List Char → Option (List Char)
  | [], s => some s
  | _ :: _, [] => none
  | k :: ks, c :: cs => if k = c then dropPrefix? ks cs else none

/-- One attempted regex match at the start of `s`, for a pattern of the shape
`kw[\n]?[\s]*([\d\w]+)[)\n,]` (the common shape of all six patterns in the
source, with `kw` the literal macro-invocation prefix such as
`get_counter!(`).

Since `\n ∈ \s` and the classes `\s`, `\w` and `[)\n,]` used in adjacent
positions are pairwise disjoint, the greedy match is deterministic:
maximal whitespace run, then a maximal non-empty word-character run (the
capture group), then one delimiter.  Returns the capture and the remaining
input after the whole match. -/
def matchAt (kw s : List Char) : Option (List Char × List Char) :=
  match dropPrefix? kw s with
  | none => none
  | some s1 =>
    let s2 := s1.dropWhile isSpaceChar
    let name := s2.takeWhile isWordChar
    if name.isEmpty then none
    else
      match s2.dropWhile isWordChar with
      | [] => none
      | d :: rest => if isDelim d then some (name, rest) else none

/-- Leftmost, non-overlapping scan (the semantics of `captures_iter`):
try a match at the current position; on success continue after the match,
otherwise advance one character.  Each successful match consumes at least
two characters, so `fuel = s.length` (see `scan`) never runs out. -/
def scanFuel (kw : List Char) : Nat → List Char → List (List Char)
  | 0, _ => []
  | fuel + 1, s =>
    match matchAt kw s with
    | some (name, rest) => name :: scanFuel kw fuel rest
    | none =>
      match s with
      | [] => []
      | _ :: cs => scanFuel kw fuel cs

/-- All captures of one recognition pattern over one file's contents. -/
def scan (kw s : List Char) : List (List Char) := scanFuel kw s.length s

/-- Literal prefix of `GET_COUNTER_REGEX`. -/
def GET_COUNTER_KW : List Char := "get_counter!(".data

/-- Literal prefix of `INCREMENT_METRIC_REGEX`. -/
def INCREMENT_METRIC_KW : List Char := "increment_metric!(".data

/-- Literal prefix of `TICK_METRIC_REGEX`. -/
def TICK_METRIC_KW : List Char := "tick_metric!(".data

/-- Literal prefix of `SET_METRIC_REGEX`. -/
def SET_METRIC_KW : List Char := "set_metric!(".data

/-- Literal prefix of `RESET_METRIC_REGEX`. -/
def RESET_METRIC_KW : List Char := "reset_metric!(".data

/-- Literal prefix of `LOAD_METRIC_REGEX`. -/
def LOAD_METRIC_KW : List Char := "load_metric!(".data

/-- The captures of all six patterns over one file, in the order the
source iterates the `regexes` array. -/
def scanFile (contents : List Char) : List (List Char) :=
  scan GET_COUNTER_KW contents ++ scan INCREMENT_METRIC_KW contents ++
  scan TICK_METRIC_KW contents ++ scan SET_METRIC_KW contents ++
  scan RESET_METRIC_KW contents ++ scan LOAD_METRIC_KW contents

/-- One entry produced by glob expansion: an entry whose enumeration failed
(`glob_err`, skipped by `filter_map(|x| x.ok())`), a path whose
`read_to_string` failed (`read_err`, skipped by `if let Ok(contents)`),
or a readable file with its contents. -/
inductive SrcEntry where
  | glob_err : SrcEntry
  | read_err : SrcEntry
  | file (contents : List Char) : SrcEntry
deriving DecidableEq

/-- The captures an entry contributes: error entries contribute none. -/
def entryCaptures : SrcEntry → List (List Char)
  | .glob_err => []
  | .read_err => []
  | .file c => scanFile c

/-- Byte-wise lexicographic `≤` on names (UTF-8 byte order = code-point
order, so comparing `Char`s is faithful to Rust's byte-wise `String` sort). -/
def lexLe : List Char → List Char → Bool
  | [], _ => true
  | _ :: _, [] => false
  | x :: xs, y :: ys => if x < y then true else if y < x then false else lexLe xs ys

/-- The `HashSet` accumulation followed by `Vec::sort` in `get_metric_names`:
both compute the ascending sequence of the distinct captured names,
modelled as deduplication followed by insertion sort under `lexLe`. -/
def sortNames (l : List (List Char)) : List (List Char) :=
  (l.dedup).insertionSort (fun a b => lexLe a b = true)

/-- `get_metric_names`: the glob-pattern parse result is passed in
explicitly (`Except.error` models a malformed pattern, propagated by `?`);
on success the entries are scanned and the names collected and sorted. -/
def get_metric_names (globResult : Except (List Char) (List SrcEntry)) :
    Except (List Char) (List (List Char)) :=
  match globResult with
  | .error e => .error e
  | .ok entries => .ok (sortNames (entries.flatMap entryCaptures))

/-- A field line of the generated struct:
`writeln!(out, "pub {metric}: AtomicU64,")`. -/
def fieldLine (m : List Char) : List Char := "pub ".data ++ m ++ ": AtomicU64,".data

/-- An initializer line of the generated constructor:
`writeln!(out, "{metric}: AtomicU64::new(0),")`. -/
def initLine (m : List Char) : List Char := m ++ ": AtomicU64::new(0),".data

/-- The generated artifact as the sequence of lines emitted by the
`writeln!` calls of `generate_metrics_recorder_with_names`, in source
order; `[]` is the empty line of a bare `writeln!(out)`. -/
def renderLines (names : List (List Char)) : List (List Char) :=
  ["use std::sync::atomic::AtomicU64;".data, [],
   "pub struct MetricsRecorder \x7b".data]
  ++ names.map fieldLine
  ++ ["\x7d".data, [],
      "impl MetricsRecorder \x7b".data,
      "pub const fn new() -> Self \x7b".data,
      "Self \x7b".data]
  ++ names.map initLine
  ++ ["\x7d".data, "\x7d".data, "\x7d".data, [],
      "pub static METRICS_RECORDER: MetricsRecorder = MetricsRecorder::new();".data]

/-- Concatenate lines, each terminated by the newline `writeln!` appends. -/
def linesText (lines : List (List Char)) : List Char :=
  lines.foldr (fun line acc => line ++ '\n' :: acc) []

/-- The full text written to `$OUT_DIR/metrics.rs`. -/
def renderArtifact (names : List (List Char)) : List Char :=
  linesText (renderLines names)

instance {ε α : Type} [DecidableEq ε] [DecidableEq α] : DecidableEq (Except ε α)
  | .error a, .error b =>
    if h : a = b then isTrue (by rw [h]) else isFalse (by intro hh; cases hh; exact h rfl)
  | .error _, .ok _ => isFalse (by intro h; cases h)
  | .ok _, .error _ => isFalse (by intro h; cases h)
  | .ok a, .ok b =>
    if h : a = b then isTrue (by rw [h]) else isFalse (by intro hh; cases hh; exact h rfl)

/-- Captured `std::process::Output` of the `rustfmt` invocation. -/
structure FmtOutput where
  success : Bool
  stdout : List Char
  stderr : List Char
deriving DecidableEq

/-- Result of one generator run: the contents left at the output path
(`none` when the file was never created) and the function's return value. -/
structure GenResult where
  fileWritten : Option (List Char)
  result : Except (List Char) Unit
deriving DecidableEq

/-- Display of `std::env::VarError::NotPresent`, the error `env::var("OUT_DIR")?`
propagates when the variable is unset. -/
def ENV_VAR_NOT_FOUND : List Char := "environment variable not found".data

/-- Prefix of the `bail!` message for a failed `rustfmt` run. -/
def FMT_ERR_PREFIX : List Char := "failed to format generated code:\n".data

/-- `generate_metrics_recorder_with_names`.  The environment
(`OUT_DIR`, as `outDir`) and the outcome of the external `rustfmt`
process (`fmt`) are passed in explicitly.  The function writes the whole
rendered artifact and drops (flushes) the writer before `rustfmt` runs;
only then is `fmt.status.success()` consulted, so `fileWritten` is set on
both branches.  The names are used exactly as supplied. -/
def generate_metrics_recorder_with_names (outDir : Option (List Char))
    (fmt : FmtOutput) (metric_names : List (List Char)) : GenResult :=
  match outDir with
  | none => { fileWritten := none, result := .error ENV_VAR_NOT_FOUND }
  | some _ =>
    let content := renderArtifact metric_names
    if fmt.success then
      { fileWritten := some content, result := .ok () }
    else
      { fileWritten := some content,
        result := .error (FMT_ERR_PREFIX ++ fmt.stdout ++ '\n' :: fmt.stderr) }

/-- `generate_metrics_recorder` (default mode): scan, then delegate.
The `cargo:rerun-if-changed` print is a build-system side effect with no
bearing on the artifact and is not modelled. -/
def generate_metrics_recorder (globResult : Except (List Char) (List SrcEntry))
    (outDir : Option (List Char)) (fmt : FmtOutput) : GenResult :=
  match get_metric_names globResult with
  | .error e => { fileWritten := none, result := .error e }
  | .ok names => generate_metrics_recorder_with_names outDir fmt names

/-- The `use` declaration the generator emits first (one line of text). -/
def useDecl : List Char := linesText ["use std::sync::atomic::AtomicU64;".data]

/-- The struct declaration, as one block of text: header line, one field
line per name, closing brace line. -/
def structDecl (names : List (List Char)) : List Char :=
  linesText ("pub struct MetricsRecorder \x7b".data :: names.map fieldLine ++ [['\x7d']])

/-- The `impl` block holding the zero-initializing constructor. -/
def implDecl (names : List (List Char)) : List Char :=
  linesText (["impl MetricsRecorder \x7b".data,
              "pub const fn new() -> Self \x7b".data,
              "Self \x7b".data]
             ++ names.map initLine ++ [['\x7d'], ['\x7d'], ['\x7d']])

/-- The public static singleton declaration. -/
def staticDecl : List Char :=
  linesText ["pub static METRICS_RECORDER: MetricsRecorder = MetricsRecorder::new();".data]

/-- The three declarations of the spec's textual contract, in order, each
separated by a blank line, with nothing else. -/
def threeDecls (names : List (List Char)) : List Char :=
  structDecl names ++ '\n' :: implDecl names ++ '\n' :: staticDecl

/-- Split text into its lines (separator `'\n'`, kept out of the pieces). -/
def splitLines : List Char → List (List Char)
  | [] => [[]]
  | c :: cs =>
    if c = '\n' then [] :: splitLines cs
    else
      match splitLines cs with
      | [] => [[c]]
      | l :: ls => (c :: l) :: ls

/-- Header line opening the generated struct. -/
def structHeader : List Char := "pub struct MetricsRecorder \x7b".data

/-- The lines of the struct body: everything strictly between the struct
header line and the next closing-brace line. -/
def structFieldLines (content : List Char) : List (List Char) :=
  (((splitLines content).dropWhile (fun l => !(l == structHeader))).drop 1).takeWhile
    (fun l => !(l == ['\x7d']))

/-- A formatter run that succeeded with empty output. -/
def fmtOk : FmtOutput := { success := true, stdout := [], stderr := [] }

/-- A formatter run that failed, with sample captured output. -/
def fmtBad : FmtOutput := { success := false, stdout := "out".data, stderr := "err".data }

/-! ### Helper lemmas -/

theorem linesText_nil : linesText [] = [] := rfl

theorem linesText_cons (l : List Char) (ls : List (List Char)) :
    linesText (l :: ls) = l ++ '\n' :: linesText ls := rfl

theorem linesText_append (xs ys : List (List Char)) :
    linesText (xs ++ ys) = linesText xs ++ linesText ys := by
  induction xs with
  | nil => simp [linesText_nil]
  | cons h t ih => simp [linesText_cons, ih]

theorem renderArtifact_decls (names : List (List Char)) :
    renderArtifact names = useDecl ++ '\n' :: threeDecls names := by
  simp [renderArtifact, renderLines, useDecl, threeDecls, structDecl, implDecl,
    staticDecl, linesText_append, linesText_cons, linesText_nil]

theorem splitLines_append {a : List Char} (b : List Char) (h : '\n' ∉ a) :
    splitLines (a ++ '\n' :: b) = a :: splitLines b := by
  induction a with
  | nil => simp [splitLines]
  | cons c cs ih =>
    have hc : c ≠ '\n' := by intro hh; exact h (hh ▸ List.mem_cons_self c cs)
    have hcs : '\n' ∉ cs := fun hm => h (List.mem_cons_of_mem c hm)
    simp [splitLines, hc, ih hcs]

theorem splitLines_linesText {lines : List (List Char)}
    (h : ∀ l ∈ lines, '\n' ∉ l) :
    splitLines (linesText lines) = lines ++ [[]] := by
  induction lines with
  | nil => simp [linesText_nil, splitLines]
  | cons l ls ih =>
    rw [linesText_cons, splitLines_append _ (h l (List.mem_cons_self l ls)),
      ih (fun x hx => h x (List.mem_cons_of_mem l hx))]
    rfl

theorem takeWhile_all_append {p : List Char → Bool} {xs : List (List Char)}
    (y : List Char) (ys : List (List Char))
    (hx : ∀ x ∈ xs, p x = true) (hy : p y = false) :
    List.takeWhile p (xs ++ y :: ys) = xs := by
  induction xs with
  | nil => simp [List.takeWhile, hy]
  | cons a t ih =>
    simp [List.takeWhile, hx a (List.mem_cons_self a t),
      ih (fun x hxx => hx x (List.mem_cons_of_mem a hxx))]

theorem fieldLine_ne_brace (m : List Char) : (fieldLine m == ['\x7d']) = false := by
  have : fieldLine m ≠ ['\x7d'] := by
    intro heq
    have := congrArg List.length heq
    simp [fieldLine] at this
  simpa using this
theorem fieldLine_no_newline {m : List Char} (h : '\n' ∉ m) : '\n' ∉ fieldLine m := by
  simp only [fieldLine, List.mem_append]
  rintro ((hc | hc) | hc)
  · exact absurd hc (by decide)
  · exact h hc
  · exact absurd hc (by decide)

theorem initLine_no_newline {m : List Char} (h : '\n' ∉ m) : '\n' ∉ initLine m := by
  simp only [initLine, List.mem_append]
  rintro (hc | hc)
  · exact h hc
  · exact absurd hc (by decide)

theorem renderLines_no_newline {names : List (List Char)}
    (h : ∀ m ∈ names, '\n' ∉ m) : ∀ l ∈ renderLines names, '\n' ∉ l := by
  intro l hl
  simp only [renderLines, List.mem_append] at hl
  rcases hl with (((hA | hF) | hB) | hI) | hC
  · exact (by decide : ∀ x ∈ ["use std::sync::atomic::AtomicU64;".data, ([] : List Char),
      "pub struct MetricsRecorder \x7b".data], '\n' ∉ x) l hA
  · rcases List.mem_map.mp hF with ⟨m, hm, rfl⟩
    exact fieldLine_no_newline (h m hm)
  · exact (by decide : ∀ x ∈ [['\x7d'], ([] : List Char), "impl MetricsRecorder \x7b".data,
      "pub const fn new() -> Self \x7b".data, "Self \x7b".data], '\n' ∉ x) l hB
  · rcases List.mem_map.mp hI with ⟨m, hm, rfl⟩
    exact initLine_no_newline (h m hm)
  · exact (by decide : ∀ x ∈ [['\x7d'], ['\x7d'], ['\x7d'], ([] : List Char),
      "pub static METRICS_RECORDER: MetricsRecorder = MetricsRecorder::new();".data], '\n' ∉ x) l hC

theorem structFieldLines_render {names : List (List Char)}
    (h : ∀ m ∈ names, '\n' ∉ m) :
    structFieldLines (renderArtifact names) = names.map fieldLine := by
  unfold structFieldLines
  rw [renderArtifact, splitLines_linesText (renderLines_no_newline h)]
  simp only [renderLines, List.append_assoc, List.cons_append, List.nil_append]
  rw [List.dropWhile_cons_of_pos (by decide), List.dropWhile_cons_of_pos (by decide),
    List.dropWhile_cons_of_neg (by simp [structHeader])]
  simp only [List.drop_succ_cons, List.drop_zero]
  exact takeWhile_all_append _ _
    (fun x hx => by
      rcases List.mem_map.mp hx with ⟨m, hm, rfl⟩
      simpa using fieldLine_ne_brace m)
    (by decide)

theorem matchAt_name {kw s name rest : List Char}
    (h : matchAt kw s = some (name, rest)) :
    name ≠ [] ∧ ∀ c ∈ name, isWordChar c = true := by
  unfold matchAt at h
  cases hp : dropPrefix? kw s with
  | none => rw [hp] at h; cases h
  | some s1 =>
    rw [hp] at h
    dsimp only at h
    split at h
    · cases h
    · rename_i hne
      split at h
      · cases h
      · rename_i d rest' hd
        split at h
        · rw [Option.some_inj] at h
          obtain ⟨rfl, rfl⟩ := Prod.mk.injEq .. ▸ h
          refine ⟨fun hnil => hne (by simp [hnil]), fun c hc => List.mem_takeWhile_imp hc⟩
        · cases h

theorem scanFuel_word {kw : List Char} :
    ∀ (fuel : Nat) (s name : List Char), name ∈ scanFuel kw fuel s →
      name ≠ [] ∧ ∀ c ∈ name, isWordChar c = true := by
  intro fuel
  induction fuel with
  | zero => intro s name h; simp [scanFuel] at h
  | succ f ih =>
    intro s name h
    simp only [scanFuel] at h
    cases hm : matchAt kw s with
    | some nr =>
      obtain ⟨n, r⟩ := nr
      rw [hm] at h
      rcases List.mem_cons.mp h with rfl | htail
      · exact matchAt_name hm
      · exact ih _ _ htail
    | none =>
      rw [hm] at h
      cases s with
      | nil => simp at h
      | cons c cs => exact ih _ _ h

theorem scan_word {kw content name : List Char} (h : name ∈ scan kw content) :
    name ≠ [] ∧ ∀ c ∈ name, isWordChar c = true :=
  scanFuel_word _ _ _ h

theorem scanFile_word {content name : List Char} (h : name ∈ scanFile content) :
    name ≠ [] ∧ ∀ c ∈ name, isWordChar c = true := by
  simp only [scanFile, List.mem_append] at h
  rcases h with ((((h | h) | h) | h) | h) | h <;> exact scan_word h
theorem lexLe_total : ∀ a b : List Char, lexLe a b = true ∨ lexLe b a = true
  | [], _ => Or.inl rfl
  | _ :: _, [] => Or.inr rfl
  | x :: xs, y :: ys => by
    rcases lt_trichotomy x y with h | h | h
    · left; simp [lexLe, h]
    · subst h
      rcases lexLe_total xs ys with ht | ht
      · left; simp [lexLe, lt_irrefl, ht]
      · right; simp [lexLe, lt_irrefl, ht]
    · right; simp [lexLe, h]

theorem lexLe_trans : ∀ a b c : List Char,
    lexLe a b = true → lexLe b c = true → lexLe a c = true
  | [], _, _, _, _ => rfl
  | _ :: _, [], _, hab, _ => by simp [lexLe] at hab
  | _ :: _, _ :: _, [], _, hbc => by simp [lexLe] at hbc
  | x :: xs, y :: ys, z :: zs, hab, hbc => by
    simp only [lexLe] at hab hbc ⊢
    rcases lt_trichotomy x y with hxy | hxy | hxy <;>
      rcases lt_trichotomy y z with hyz | hyz | hyz
    · rw [if_pos (lt_trans hxy hyz)]
    · subst hyz; rw [if_pos hxy]
    · rw [if_neg (asymm hyz), if_pos hyz] at hbc; simp at hbc
    · subst hxy; rw [if_pos hyz]
    · subst hxy; subst hyz
      rw [if_neg (lt_irrefl x), if_neg (lt_irrefl x)] at hab hbc ⊢
      exact lexLe_trans xs ys zs hab hbc
    · subst hxy; rw [if_neg (asymm hyz), if_pos hyz] at hbc; simp at hbc
    · rw [if_neg (asymm hxy), if_pos hxy] at hab; simp at hab
    · subst hyz; rw [if_neg (asymm hxy), if_pos hxy] at hab; simp at hab
    · rw [if_neg (asymm hxy), if_pos hxy] at hab; simp at hab

theorem lexLe_antisymm : ∀ a b : List Char,
    lexLe a b = true → lexLe b a = true → a = b
  | [], [], _, _ => rfl
  | [], _ :: _, _, hba => by simp [lexLe] at hba
  | _ :: _, [], hab, _ => by simp [lexLe] at hab
  | x :: xs, y :: ys, hab, hba => by
    simp only [lexLe] at hab hba
    rcases lt_trichotomy x y with hxy | hxy | hxy
    · rw [if_neg (asymm hxy), if_pos hxy] at hba; simp at hba
    · subst hxy
      rw [if_neg (lt_irrefl x), if_neg (lt_irrefl x)] at hab hba
      rw [lexLe_antisymm xs ys hab hba]
    · rw [if_neg (asymm hxy), if_pos hxy] at hab; simp at hab
theorem sortNames_sorted (l : List (List Char)) :
    List.Sorted (fun a b => lexLe a b = true) (sortNames l) := by
  haveI : IsTotal (List Char) (fun a b => lexLe a b = true) := ⟨lexLe_total⟩
  haveI : IsTrans (List Char) (fun a b => lexLe a b = true) := ⟨lexLe_trans⟩
  exact List.sorted_insertionSort _ _

theorem sortNames_nodup (l : List (List Char)) : (sortNames l).Nodup :=
  ((List.perm_insertionSort _ _).nodup_iff).mpr (List.nodup_dedup l)

theorem mem_sortNames {l : List (List Char)} {x : List Char} :
    x ∈ sortNames l ↔ x ∈ l := by
  rw [sortNames, (List.perm_insertionSort _ _).mem_iff, List.mem_dedup]

theorem sortNames_perm {l₁ l₂ : List (List Char)} (h : l₁.Perm l₂) :
    sortNames l₁ = sortNames l₂ := by
  haveI : IsTotal (List Char) (fun a b => lexLe a b = true) := ⟨lexLe_total⟩
  haveI : IsTrans (List Char) (fun a b => lexLe a b = true) := ⟨lexLe_trans⟩
  haveI : IsAntisymm (List Char) (fun a b => lexLe a b = true) := ⟨lexLe_antisymm⟩
  exact List.eq_of_perm_of_sorted
    ((List.perm_insertionSort _ _).trans ((h.dedup).trans (List.perm_insertionSort _ _).symm))
    (List.sorted_insertionSort _ _) (List.sorted_insertionSort _ _)

/-- A caller-independent fact used by several claims: for a present
`OUT_DIR` the full rendered artifact is on disk at return, whatever the
formatter did. -/
theorem genWithNames_fileWritten (d : List Char) (fmt : FmtOutput)
    (names : List (List Char)) :
    (generate_metrics_recorder_with_names (some d) fmt names).fileWritten =
      some (renderArtifact names) := by
  unfold generate_metrics_recorder_with_names
  dsimp only
  split <;> rfl

/-! ### Claims -/

/-- C1, counterexample: `generate_metrics_recorder_with_names` does not
canonicalize its input.  Called with `["z", "a", "a"]` it produces a
different artifact than for the canonicalized sequence `["a", "z"]`
(which is what `sortNames`, the collector's canonicalization, yields),
and the emitted struct body has three field lines, not two. -/
theorem C1_counterexample :
    sortNames ["z".data, "a".data, "a".data] = ["a".data, "z".data] ∧
    generate_metrics_recorder_with_names (some "out".data) fmtOk
        ["z".data, "a".data, "a".data] ≠
      generate_metrics_recorder_with_names (some "out".data) fmtOk
        ["a".data, "z".data] ∧
    (structFieldLines (renderArtifact ["z".data, "a".data, "a".data])).length = 3 := by
  refine ⟨by decide, by decide, by decide⟩

/-- C1, amended: `generate_metrics_recorder_with_names` uses the caller's
sequence exactly as supplied — the artifact it writes has one struct field
line per supplied name, in supplied order, duplicates preserved; no
deduplication or sorting happens.  (Names are newline-free identifiers.) -/
theorem C1_amended_thm (names : List (List Char)) (h : ∀ m ∈ names, '\n' ∉ m) :
    structFieldLines (renderArtifact names) = names.map fieldLine ∧
    ∀ d fmt, (generate_metrics_recorder_with_names (some d) fmt names).fileWritten =
      some (renderArtifact names) :=
  ⟨structFieldLines_render h, fun d fmt => genWithNames_fileWritten d fmt names⟩

/-- C1, witness: the amended statement at the claim's own scenario
`["z", "a", "a"]`: three field lines, in input order. -/
theorem C1_amended_witness :
    (∀ m ∈ [['z'], ['a'], ['a']], '\n' ∉ m) ∧
    structFieldLines (renderArtifact [['z'], ['a'], ['a']]) =
      List.map fieldLine [['z'], ['a'], ['a']] :=
  ⟨by decide, (C1_amended_thm [['z'], ['a'], ['a']] (by decide)).1⟩

/-- C2, counterexample: the emitted artifact does not consist of the three
declarations alone — already for the empty name sequence the text on disk
differs from struct + constructor + singleton (a `use` declaration
precedes them). -/
theorem C2_counterexample :
    (generate_metrics_recorder_with_names (some "out".data) fmtOk []).fileWritten ≠
      some (threeDecls []) := by
  decide

/-- C2, amended: for every name sequence the artifact text is exactly one
`use` declaration importing `AtomicU64`, then the three declarations of the
claim — struct, zero-initializing constructor, public static singleton —
in that order, each separated by a single blank line, with nothing else;
as a pure function of the names it is bit-for-bit reproducible. -/
theorem C2_amended_thm (d : List Char) (fmt : FmtOutput) (names : List (List Char)) :
    (generate_metrics_recorder_with_names (some d) fmt names).fileWritten =
      some (useDecl ++ '\n' :: threeDecls names) := by
  rw [genWithNames_fileWritten, renderArtifact_decls]

/-- C3, counterexample: the file content `get_counter!(1a)` makes the
`get_counter` pattern capture the name `1a`, which begins with a digit. -/
theorem C3_counterexample :
    scanFile "get_counter!(1a)".data = ["1a".data] ∧
    "1a".data.head? = some '1' ∧ '1'.isDigit = true := by
  refine ⟨by decide, by decide, by decide⟩

/-- C3, amended: every captured name is a non-empty token of letters,
digits and underscores (`[\d\w]+` of the six patterns), but it may begin
with a digit — the pattern does not enforce the identifier rule that the
first character is a non-digit. -/
theorem C3_amended_thm (content name : List Char) (h : name ∈ scanFile content) :
    name ≠ [] ∧ ∀ c ∈ name, isWordChar c = true :=
  scanFile_word h

/-- C3, witness: the amended statement at `load_metric!(x)`. -/
theorem C3_amended_witness :
    (['x'] ∈ scanFile "load_metric!(x)".data) ∧
    (['x'] ≠ [] ∧ ∀ c ∈ ['x'], isWordChar c = true) :=
  ⟨by decide, C3_amended_thm "load_metric!(x)".data ['x'] (by decide)⟩

/-- C4: the name sequence returned by `get_metric_names` is sorted
ascending in byte-wise lexicographic order, has no duplicates, and holds
a name exactly when some entry's captures (any operation kind, any file)
contain it — multiple capturing sites contribute one entry. -/
theorem C4_thm (entries : List SrcEntry) (ns : List (List Char))
    (h : get_metric_names (Except.ok entries) = Except.ok ns) :
    List.Sorted (fun a b => lexLe a b = true) ns ∧ ns.Nodup ∧
    ∀ n, n ∈ ns ↔ ∃ e ∈ entries, n ∈ entryCaptures e := by
  have hns : sortNames (entries.flatMap entryCaptures) = ns := by
    simpa [get_metric_names] using h
  subst hns
  refine ⟨sortNames_sorted _, sortNames_nodup _, fun n => ?_⟩
  rw [mem_sortNames, List.mem_flatMap]

/-- C4, witness: a file using two kinds plus a failing glob entry gives
the sorted duplicate-free sequence `["a", "b"]`. -/
theorem C4_witness :
    get_metric_names (Except.ok [SrcEntry.file "tick_metric!(b)\nget_counter!(a)".data,
        SrcEntry.glob_err]) = Except.ok [['a'], ['b']] ∧
    (List.Sorted (fun a b => lexLe a b = true) [['a'], ['b']] ∧
      List.Nodup [['a'], ['b']] ∧
      ∀ n, n ∈ [['a'], ['b']] ↔
        ∃ e ∈ [SrcEntry.file "tick_metric!(b)\nget_counter!(a)".data, SrcEntry.glob_err],
          n ∈ entryCaptures e) :=
  ⟨by decide, C4_thm _ _ (by decide)⟩

/-- C5: with `OUT_DIR` present, a failing `rustfmt` makes
`generate_metrics_recorder_with_names` return the fatal `bail!` error whose
message is the fixed prefix followed by the tool's captured stdout and
stderr; a succeeding `rustfmt` makes it return success. -/
theorem C5_thm (d : List Char) (fmt : FmtOutput) (names : List (List Char)) :
    (fmt.success = true →
      (generate_metrics_recorder_with_names (some d) fmt names).result = Except.ok ()) ∧
    (fmt.success = false →
      (generate_metrics_recorder_with_names (some d) fmt names).result =
        Except.error (FMT_ERR_PREFIX ++ fmt.stdout ++ '\n' :: fmt.stderr)) := by
  constructor <;> intro hs <;> simp [generate_metrics_recorder_with_names, hs]

/-- C5, witness: both branches at concrete formatter outcomes. -/
theorem C5_witness :
    (generate_metrics_recorder_with_names (some "out".data) fmtOk []).result =
      Except.ok () ∧
    (generate_metrics_recorder_with_names (some "out".data) fmtBad []).result =
      Except.error (FMT_ERR_PREFIX ++ "out".data ++ '\n' :: "err".data) :=
  ⟨(C5_thm "out".data fmtOk []).1 rfl, (C5_thm "out".data fmtBad []).2 rfl⟩

/-- C6: a malformed glob pattern is propagated unchanged by
`get_metric_names` and by the default-mode orchestrator, and a missing
`OUT_DIR` environment variable aborts
`generate_metrics_recorder_with_names` with the variable-lookup error. -/
theorem C6_thm (e : List Char) (d : Option (List Char)) (fmt : FmtOutput)
    (names : List (List Char)) :
    get_metric_names (Except.error e) = Except.error e ∧
    (generate_metrics_recorder (Except.error e) d fmt).result = Except.error e ∧
    (generate_metrics_recorder_with_names none fmt names).result =
      Except.error ENV_VAR_NOT_FOUND ∧
    (generate_metrics_recorder_with_names none fmt names).fileWritten = none :=
  ⟨rfl, rfl, rfl, rfl⟩

/-- C7: an entry that fails to enumerate and a file that fails to read are
each skipped: dropping them leaves `get_metric_names` unchanged, and the
scan still succeeds. -/
theorem C7_thm (pre post : List SrcEntry) :
    get_metric_names (Except.ok (pre ++ SrcEntry.glob_err :: post)) =
      get_metric_names (Except.ok (pre ++ post)) ∧
    get_metric_names (Except.ok (pre ++ SrcEntry.read_err :: post)) =
      get_metric_names (Except.ok (pre ++ post)) ∧
    ∃ ns, get_metric_names (Except.ok (pre ++ SrcEntry.glob_err :: post)) =
      Except.ok ns := by
  refine ⟨?_, ?_, ⟨_, rfl⟩⟩ <;>
    simp [get_metric_names, List.flatMap_append, entryCaptures]

/-- C8: an empty name sequence is not an error: the run succeeds and the
artifact on disk is the complete zero-field type, constructor and
singleton. -/
theorem C8_thm (d : List Char) (fmt : FmtOutput) (h : fmt.success = true) :
    (generate_metrics_recorder_with_names (some d) fmt []).result = Except.ok () ∧
    (generate_metrics_recorder_with_names (some d) fmt []).fileWritten =
      some "use std::sync::atomic::AtomicU64;\n\npub struct MetricsRecorder \x7b\n\x7d\n\nimpl MetricsRecorder \x7b\npub const fn new() -> Self \x7b\nSelf \x7b\n\x7d\n\x7d\n\x7d\n\npub static METRICS_RECORDER: MetricsRecorder = MetricsRecorder::new();\n".data ∧
    structFieldLines (renderArtifact []) = [] := by
  refine ⟨by simp [generate_metrics_recorder_with_names, h], ?_, by decide⟩
  rw [genWithNames_fileWritten]
  decide

/-- C8, witness: the success branch at a concrete formatter outcome. -/
theorem C8_witness :
    fmtOk.success = true ∧
    (generate_metrics_recorder_with_names (some "out".data) fmtOk []).result =
      Except.ok () :=
  ⟨rfl, (C8_thm "out".data fmtOk rfl).1⟩

/-- C9: the pipeline is deterministic in the file set: permuting the
enumeration order of the (byte-identical) input files leaves the entire
run result — artifact bytes included — unchanged.  (The run is a pure
function of its inputs, so two runs on identical inputs are trivially
byte-identical.) -/
theorem C9_thm (entries₁ entries₂ : List SrcEntry) (d : Option (List Char))
    (fmt : FmtOutput) (h : entries₁.Perm entries₂) :
    generate_metrics_recorder (Except.ok entries₁) d fmt =
      generate_metrics_recorder (Except.ok entries₂) d fmt := by
  have hs : sortNames (entries₁.flatMap entryCaptures) =
      sortNames (entries₂.flatMap entryCaptures) :=
    sortNames_perm (h.flatMap_right entryCaptures)
  simp [generate_metrics_recorder, get_metric_names, hs]

/-- C9, witness: swapping two files does not change the run result. -/
theorem C9_witness :
    ([SrcEntry.file "tick_metric!(a)".data, SrcEntry.file "load_metric!(b)".data].Perm
      [SrcEntry.file "load_metric!(b)".data, SrcEntry.file "tick_metric!(a)".data]) ∧
    generate_metrics_recorder
        (Except.ok [SrcEntry.file "tick_metric!(a)".data,
          SrcEntry.file "load_metric!(b)".data]) (some "out".data) fmtOk =
      generate_metrics_recorder
        (Except.ok [SrcEntry.file "load_metric!(b)".data,
          SrcEntry.file "tick_metric!(a)".data]) (some "out".data) fmtOk :=
  ⟨by decide, C9_thm _ _ _ _ (by decide)⟩

/-- C10: the artifact is fully written (and the writer dropped/flushed)
before `rustfmt` runs, so when the formatter fails the function returns an
error while the complete unformatted artifact remains at the output path. -/
theorem C10_thm (d : List Char) (fmt : FmtOutput) (names : List (List Char))
    (h : fmt.success = false) :
    (generate_metrics_recorder_with_names (some d) fmt names).fileWritten =
      some (renderArtifact names) ∧
    (generate_metrics_recorder_with_names (some d) fmt names).result =
      Except.error (FMT_ERR_PREFIX ++ fmt.stdout ++ '\n' :: fmt.stderr) :=
  ⟨genWithNames_fileWritten d fmt names,
    by simp [generate_metrics_recorder_with_names, h]⟩

/-- C10, witness: the failure branch at a concrete formatter outcome. -/
theorem C10_witness :
    fmtBad.success = false ∧
    (generate_metrics_recorder_with_names (some "out".data) fmtBad [['a']]).fileWritten =
      some (renderArtifact [['a']]) :=
  ⟨rfl, (C10_thm "out".data fmtBad [['a']] rfl).1⟩

end AtomicMetrics
